import Mathlib

/-!
Shallow embedding of the Change_Bot copy-trading core, translated from the
TypeScript sources (`riskManager.ts`, `copyStrategy.ts`, `copyMonitor.ts`,
`safeNumberUtils.ts`), together with theorems settling the spec claims.

Modelling conventions, applied uniformly:
* A JavaScript `number` that the code guards with `Number.isFinite` is
  modelled as `Option ℚ`: `some q` is a finite value, `none` stands for
  `NaN`, `±Infinity` or `undefined` — the code never distinguishes these
  from one another, only finite vs. not.
* A numeric field of a Redis hash (always stored as a string) is modelled
  by `Field`: `absent` (no such field), `val q` (parses to the finite
  rational `q`), or `junk` (present but does not parse to a finite number).
* Redis hashes live in `Store.positions : String → Option PosHash`;
  `hset` on a missing key creates the hash, and `hset` never deletes
  fields, which the update functions reproduce field by field.
* Timestamps and durations are rationals (milliseconds, as in the source).
-/

namespace ChangeBot

/-- JS number as seen through `Number.isFinite`: `none` = NaN/±∞/undefined. -/
abbrev JsNum := Option ℚ

deriving instance DecidableEq for Except

/-- A string-valued numeric field of a Redis hash. -/
inductive Field where
  | absent : Field
  | val : ℚ → Field
  | junk : Field
  deriving DecidableEq, Repr

/-- JS `a ?? b` on two hash fields: `b` only when `a` is absent. -/
def Field.coalesce : Field → Field → Field
  | .absent, b => b
  | a, _ => a

/-- safeNumberUtils.ts `safeParseNumber` restricted to the shapes the
embedded code feeds it: a finite number parses to itself, everything else
(NaN, ±Infinity, undefined) yields the fallback. -/
def safeParseNumber (value : JsNum) (fallback : ℚ) : ℚ :=
  match value with
  | some q => q
  | none => fallback

/-- `safeParseNumber` applied to a stored hash field: an absent field and an
unparseable field both fall back. -/
def safeParseField (f : Field) (fallback : ℚ) : ℚ :=
  match f with
  | .val q => q
  | _ => fallback

/-- safeNumberUtils.ts `safeDivide`: fallback when the denominator is zero
(operands reaching it in the embedded code are already finite). -/
def safeDivide (numerator denominator fallback : ℚ) : ℚ :=
  if denominator = 0 then fallback else numerator / denominator

/-- safeNumberUtils.ts `validateSlippage`. The argument is a JS number, so
non-finite inputs collapse to the default via `safeParseNumber`; the
`!Number.isFinite(s)` re-check of the source is then vacuous and the
remaining tests are transcribed in order. -/
def validateSlippage (slippage : JsNum) (defaultValue : ℚ) : ℚ :=
  let s := safeParseNumber slippage defaultValue
  if s ≤ 0 then defaultValue
  else if s > 1/2 then 1/2
  else if s < 1/10000 then 1/10000
  else s

/-- copyStrategy.ts `CopyStrategy.calculateConfidence` (upvotes is a JS
number used only through equality with 1, 2 and `>= 3`). -/
def calculateConfidence (upvotes : ℤ) : ℤ :=
  if upvotes = 1 then 30
  else if upvotes = 2 then 70
  else if 3 ≤ upvotes then 95
  else 50

/-! ## Position Store (riskManager.ts `PositionManager`) -/

/-- The Redis hash `position:{mint}` — the fields the embedded operations
read or write. String-valued fields are `Option String` (`none` = absent);
numeric fields are `Field`. -/
structure PosHash where
  strategy : Option String := none
  status : Option String := none
  entryPrice : Field := .absent
  solAmount : Field := .absent
  tokensAmount : Field := .absent
  entryTime : Field := .absent
  lastPrice : Field := .absent
  maxPrice : Field := .absent
  highPrice : Field := .absent
  minPnlPercent : Field := .absent
  maxPnlPercent : Field := .absent
  closePrice : Field := .absent
  closeTime : Field := .absent
  pnlSOL : Field := .absent
  pnlPercent : Field := .absent
  closeReason : Option String := none
  walletSource : Option String := none
  deriving DecidableEq, Repr

/-- One entry of the date-keyed trade ledger (`trades:YYYY-MM-DD`), keeping
the numeric fields the claims are about. -/
structure TradeRecord where
  mint : String
  solReceived : ℚ
  tokensSold : ℚ
  costBasis : ℚ
  estimatedFees : ℚ
  avgEntryPrice : ℚ
  pnlSOL : ℚ
  pnlPercent : ℚ
  exitPrice : ℚ
  reason : Option String
  deriving DecidableEq, Repr

/-- The slice of Redis the PositionManager touches: the `open_positions`
set, the per-mint position hashes, and today's trade-ledger list. -/
structure Store where
  openPositions : List String
  positions : String → Option PosHash
  trades : List TradeRecord

/-- Redis SADD on `open_positions`. -/
def Store.sadd (s : Store) (mint : String) : Store :=
  { s with openPositions :=
      if mint ∈ s.openPositions then s.openPositions else mint :: s.openPositions }

/-- Redis SREM on `open_positions`. -/
def Store.srem (s : Store) (mint : String) : Store :=
  { s with openPositions := s.openPositions.filter (· ≠ mint) }

/-- Redis HSET of a whole field patch on `position:{mint}`: creates the hash
when the key is missing (the patch function receives the empty hash). -/
def Store.hsetPosition (s : Store) (mint : String) (patch : PosHash → PosHash) : Store :=
  { s with positions := fun m =>
      if m = mint then some (patch ((s.positions mint).getD {})) else s.positions m }

/-- The result PositionManager.closePosition resolves with. -/
structure ClosedPosition where
  pnlSOL : ℚ
  pnlPercent : ℚ
  deriving DecidableEq, Repr

/-- The validated subset of `RegisterOpenPositionInput` the embedding needs.
The numeric inputs are JS numbers the source stores via `toString` without
any numeric validation; claims only evaluate them at finite values, so they
are plain rationals here. -/
structure RegisterInput where
  mint : String
  strategy : String
  entryPrice : ℚ
  solAmount : ℚ
  tokensAmount : ℚ
  entryTime : Option ℚ := none
  walletSource : Option String := none
  deriving DecidableEq, Repr

/-- riskManager.ts `PositionManager.registerOpenPosition`. Validates only
that `mint` and `strategy` are truthy (non-empty), then SADDs the mint and
HSETs the record with `status: 'open'`; the numeric inputs are stored
as given. `now` is `Date.now()`. -/
def registerOpenPosition (s : Store) (input : RegisterInput) (now : ℚ) :
    Except String Store :=
  if input.mint = "" then .error "registerOpenPosition: mint is required"
  else if input.strategy = "" then .error "registerOpenPosition: strategy is required"
  else
    .ok ((s.sadd input.mint).hsetPosition input.mint fun h =>
      { h with
        strategy := some input.strategy
        status := some "open"
        entryPrice := .val input.entryPrice
        solAmount := .val input.solAmount
        tokensAmount := .val input.tokensAmount
        entryTime := .val (input.entryTime.getD now)
        walletSource := some (input.walletSource.getD "") })

/-- riskManager.ts `PositionManager.updateMaxPrice`: a bare
`redis.hset(position:mint, { maxPrice: price.toString() })` — no comparison
with the stored value and no existence check (HSET creates the hash). -/
def updateMaxPrice (s : Store) (mint : String) (price : ℚ) : Store :=
  s.hsetPosition mint fun h => { h with maxPrice := .val price }

/-- riskManager.ts `PositionManager.closePosition`, transcribed clause by
clause. `closePrice`, `tokensSold`, `solReceived` are the JS-number
arguments (`none` = non-finite or, for `solReceived`, not passed);
`dryRun` is the module-level `DRY_RUN_MODE`. Errors with the source's
"Position not found" message only when the hash is missing/empty. -/
def closePosition (s : Store) (mint : String) (closePrice tokensSold : JsNum)
    (solReceived : JsNum) (reason : Option String) (dryRun : Bool) (now : ℚ) :
    Except String (Store × ClosedPosition) :=
  match s.positions mint with
  | none => .error ("Position not found for mint " ++ mint)
  | some raw =>
    let solSpent := safeParseField raw.solAmount 0
    let tokensHeld := safeParseField raw.tokensAmount 0
    let fallbackTokensSold :=
      if 0 < tokensHeld then tokensHeld else safeParseNumber tokensSold 0
    -- JS `tokensHeld || 0` in the fallback of safeParseNumber
    let requested := safeParseNumber tokensSold (if tokensHeld = 0 then 0 else tokensHeld)
    let normalizedTokensSold :=
      if tokensHeld ≤ 0 then requested
      else if requested ≤ 0 then tokensHeld
      else min requested tokensHeld
    let resolvedClosePrice :=
      match closePrice with
      | some p => p
      | none => safeParseField (raw.lastPrice.coalesce raw.entryPrice) 0
    let costBasis :=
      if tokensHeld ≤ 0 ∨ solSpent ≤ 0 then solSpent
      else safeDivide solSpent tokensHeld 0 * normalizedTokensSold
    let avgEntryPrice := if 0 < tokensHeld then safeDivide solSpent tokensHeld 0 else 0
    -- JS `normalizedTokensSold || fallbackTokensSold`
    let fallbackSolValue :=
      resolvedClosePrice *
        (if normalizedTokensSold = 0 then fallbackTokensSold else normalizedTokensSold)
    let safeSolReceived :=
      match solReceived with
      | some v => v
      | none => fallbackSolValue
    let estimatedFees : ℚ := if dryRun then 0 else 5000 / 1000000000
    let realizedSol := max (safeSolReceived - estimatedFees) 0
    let pnlSOL := realizedSol - costBasis
    let pnlPercent := if costBasis = 0 then 0 else pnlSOL / costBasis * 100
    let record : TradeRecord :=
      { mint := mint
        solReceived := realizedSol
        tokensSold := normalizedTokensSold
        costBasis := costBasis
        estimatedFees := estimatedFees
        avgEntryPrice := avgEntryPrice
        pnlSOL := pnlSOL
        pnlPercent := pnlPercent
        exitPrice := resolvedClosePrice
        reason := reason }
    let s1 := (s.srem mint).hsetPosition mint fun h =>
      { h with
        status := some "closed"
        closeTime := .val now
        closePrice := .val resolvedClosePrice
        pnlSOL := .val pnlSOL
        pnlPercent := .val pnlPercent
        -- `closeReason: reason` is dropped by the undefined-filter when absent
        closeReason := match reason with | some r => some r | none => h.closeReason
        tokensAmount := .val tokensHeld
        solAmount := .val solSpent
        lastPrice := .val resolvedClosePrice
        -- `maxPrice: raw.maxPrice ?? raw.highPrice ?? undefined`, undefined filtered
        maxPrice := (raw.maxPrice.coalesce raw.highPrice).coalesce h.maxPrice
        entryPrice := if 0 < avgEntryPrice then .val avgEntryPrice else h.entryPrice }
    .ok ({ s1 with trades := s1.trades ++ [record] },
      { pnlSOL := pnlSOL, pnlPercent := pnlPercent })

/-! ## Exit decision engine (copyStrategy.ts `CopyStrategy.shouldExit`) -/

/-- The environment-derived configuration the strategy constructor copies in. -/
structure StrategyConfig where
  takeProfitEnabled : Bool
  takeProfitPercent : ℚ
  trailingStopEnabled : Bool
  trailingStopPercent : ℚ
  stopLossEnabled : Bool
  stopLoss : ℚ
  maxHoldEnabled : Bool
  maxHoldSeconds : ℚ
  minWalletsToSell : ℕ
  deriving DecidableEq, Repr

/-- The position fields `shouldExit` parses: `entryPrice` and `entryTime`
as already-parsed finite values, `maxPrice` as `none` when the stored
string is falsy (absent/empty), so that `position.maxPrice ||
position.entryPrice` becomes `getD`. -/
structure StratPosition where
  entryPrice : ℚ
  maxPrice : Option ℚ := none
  entryTime : ℚ
  deriving DecidableEq, Repr

inductive ExitReason where
  | take_profit
  | trailing_stop
  | stop_loss
  | traders_sold
  | max_hold_time
  deriving DecidableEq, Repr

/-- The reason string `shouldExit` puts in its decision object. -/
def ExitReason.toReasonString : ExitReason → String
  | .take_profit => "take_profit"
  | .trailing_stop => "trailing_stop"
  | .stop_loss => "stop_loss"
  | .traders_sold => "traders_sold"
  | .max_hold_time => "max_hold_time"

/-- The decision object, restricted to the fields consumed by callers. -/
structure ExitDecision where
  exit : Bool
  reason : Option ExitReason := none
  priority : Option ℕ := none
  deriving DecidableEq, Repr

/-- Rules 2–5 of `shouldExit` (trailing stop, stop loss, traders sold, max
hold), split out because the take-profit branch can fall through to them. -/
def shouldExitAfterTakeProfit (cfg : StrategyConfig) (maxPrice currentPrice
    pnlPercent maxPnlPercent holdTime : ℚ) (sellCount : ℕ) : ExitDecision :=
  if cfg.trailingStopEnabled ∧ 0 < maxPnlPercent ∧
      currentPrice ≤ maxPrice * (1 - cfg.trailingStopPercent / 100) then
    { exit := true, reason := some .trailing_stop, priority := some 2 }
  else if cfg.stopLossEnabled ∧ pnlPercent ≤ -cfg.stopLoss then
    { exit := true, reason := some .stop_loss, priority := some 3 }
  else if cfg.minWalletsToSell ≤ sellCount then
    { exit := true, reason := some .traders_sold, priority := some 4 }
  else if cfg.maxHoldEnabled ∧ cfg.maxHoldSeconds ≤ holdTime then
    { exit := true, reason := some .max_hold_time, priority := some 5 }
  else
    { exit := false }

/-- copyStrategy.ts `CopyStrategy.shouldExit`. `sellCount` is the value
`countSellers` reads from the per-mint seller set; `now` is `Date.now()`
in milliseconds. The take-profit branch defers to the later rules when the
position is under 60 s old and the peak PnL has not reached twice the
target ("letting trailing manage it"). -/
def shouldExit (cfg : StrategyConfig) (p : StratPosition) (currentPrice : ℚ)
    (now : ℚ) (sellCount : ℕ) : ExitDecision :=
  let entryPrice := p.entryPrice
  let maxPrice := p.maxPrice.getD p.entryPrice
  let pnlPercent := (currentPrice - entryPrice) / entryPrice * 100
  let maxPnlPercent := (maxPrice - entryPrice) / entryPrice * 100
  let holdTime := (now - p.entryTime) / 1000
  if cfg.takeProfitEnabled ∧ cfg.takeProfitPercent ≤ pnlPercent then
    if ¬holdTime < 60 ∨ cfg.takeProfitPercent * 2 ≤ maxPnlPercent then
      { exit := true, reason := some .take_profit, priority := some 1 }
    else
      shouldExitAfterTakeProfit cfg maxPrice currentPrice pnlPercent
        maxPnlPercent holdTime sellCount
  else
    shouldExitAfterTakeProfit cfg maxPrice currentPrice pnlPercent
      maxPnlPercent holdTime sellCount

/-- The five exit conditions of §4.5 as standalone predicates over the same
derived quantities `shouldExit` computes (the take-profit rule including
its early-hold refinement, as the spec states it). -/
def exitRuleFires (cfg : StrategyConfig) (p : StratPosition) (currentPrice : ℚ)
    (now : ℚ) (sellCount : ℕ) : ExitReason → Bool :=
  let entryPrice := p.entryPrice
  let maxPrice := p.maxPrice.getD p.entryPrice
  let pnlPercent := (currentPrice - entryPrice) / entryPrice * 100
  let maxPnlPercent := (maxPrice - entryPrice) / entryPrice * 100
  let holdTime := (now - p.entryTime) / 1000
  fun r =>
    match r with
    | .take_profit =>
        decide ((cfg.takeProfitEnabled ∧ cfg.takeProfitPercent ≤ pnlPercent) ∧
          (¬holdTime < 60 ∨ cfg.takeProfitPercent * 2 ≤ maxPnlPercent))
    | .trailing_stop =>
        decide (cfg.trailingStopEnabled ∧ 0 < maxPnlPercent ∧
          currentPrice ≤ maxPrice * (1 - cfg.trailingStopPercent / 100))
    | .stop_loss =>
        decide (cfg.stopLossEnabled ∧ pnlPercent ≤ -cfg.stopLoss)
    | .traders_sold => decide (cfg.minWalletsToSell ≤ sellCount)
    | .max_hold_time =>
        decide (cfg.maxHoldEnabled ∧ cfg.maxHoldSeconds ≤ holdTime)

/-- The fixed priority order of the exit ladder. -/
def exitPriorityOrder : List ExitReason :=
  [.take_profit, .trailing_stop, .stop_loss, .traders_sold, .max_hold_time]

/-! ## Monitor loop (copyMonitor.ts) -/

/-- Environment- and constant-derived configuration of the monitor. The
three time windows are the hard-coded constants of the source
(`WALLET_EXIT_WINDOW = 180000`, `LOSS_PROTECTION_WINDOW = 600000`,
`INDEPENDENT_MODE_TIME = 600000`). -/
structure MonitorConfig where
  minWalletsToSell : ℕ
  profitTargetPercent : ℚ
  trailingStopPercent : ℚ
  stopLossPercent : ℚ
  volumeExitEnabled : Bool
  volumeDropPercent : ℚ
  volumeWindowMs : ℚ
  volumeMinHoldMs : ℚ
  partialTpEnabled : Bool
  dryRun : Bool
  enableAutoTrading : Bool
  hasExecutor : Bool
  strat : StrategyConfig
  deriving DecidableEq, Repr

/-- In-memory `WalletSellInfo` for one mint; the set of selling wallets is
kept as its size, which is all the code reads. -/
structure WalletSellInfo where
  walletsSellingSize : ℕ
  lastSellAt : ℚ
  minEntryAt : ℚ
  deriving DecidableEq, Repr

inductive HybridPhase where
  | none
  | copy_wallets
  | loss_protection
  | independent_time
  | volume_exit
  deriving DecidableEq, Repr

/-- `HybridExitDecision`, restricted to the fields callers consume. -/
structure HybridExitDecision where
  shouldExit : Bool
  phase : HybridPhase
  reason : Option String := none
  deriving DecidableEq, Repr

/-- The position fields the monitor parses out of a `Position`, already as
finite numbers (the monitor applies `Number(...)` to the stored strings). -/
structure MonPosition where
  mint : String
  entryPrice : ℚ
  solAmount : ℚ
  tokensAmount : ℚ
  entryTime : ℚ
  maxPrice : Option ℚ := none
  deriving DecidableEq, Repr

/-- copyMonitor.ts `evaluateHybridExit`. `ws` is `walletSellState.get(mint)`.
The third branch (`holdTimeMs ≥ INDEPENDENT_MODE_TIME` with a positive
trailing percent) invokes `copyStrategy.evaluateTrailingStop`, a method
`CopyStrategy` does not define, so reaching it throws a TypeError at
runtime; that is `Except.error ()` here. -/
def evaluateHybridExit (cfg : MonitorConfig) (position : MonPosition)
    (pnlPercent : ℚ) (ws : Option WalletSellInfo) (now : ℚ) :
    Except Unit HybridExitDecision :=
  let holdTimeMs := now - position.entryTime
  match ws with
  | some w =>
    if cfg.minWalletsToSell ≤ w.walletsSellingSize ∧
        now - w.minEntryAt ≤ 180000 then
      .ok { shouldExit := true, phase := .copy_wallets, reason := some "copy_sell" }
    else
      evaluateHybridExitTail cfg holdTimeMs pnlPercent
  | none => evaluateHybridExitTail cfg holdTimeMs pnlPercent
where
  /-- The branches after the copy-wallets check. -/
  evaluateHybridExitTail (cfg : MonitorConfig) (holdTimeMs pnlPercent : ℚ) :
      Except Unit HybridExitDecision :=
    if holdTimeMs ≤ 600000 ∧ pnlPercent ≤ -|cfg.stopLossPercent| then
      .ok { shouldExit := true, phase := .loss_protection, reason := some "hybrid_stop_loss" }
    else if holdTimeMs ≤ 600000 ∧ cfg.profitTargetPercent ≤ pnlPercent then
      .ok { shouldExit := true, phase := .loss_protection, reason := some "hybrid_take_profit" }
    else if 600000 ≤ holdTimeMs ∧ 0 < cfg.trailingStopPercent then
      .error ()
    else
      .ok { shouldExit := false, phase := .none }

/-- In-memory `VolumeState` for one mint. -/
structure VolumeState where
  lastPrice : ℚ
  lastTs : ℚ
  peakVelocity : ℚ
  lastPeakTs : ℚ
  deriving DecidableEq, Repr

/-- copyMonitor.ts `updateVolumeAndCheckExit`, as a pure step on the
per-mint `volumeState` entry; returns the updated entry and the decision. -/
def updateVolumeAndCheckExit (cfg : MonitorConfig) (st0 : Option VolumeState)
    (currentPrice holdTimeMs now : ℚ) :
    Option VolumeState × HybridExitDecision :=
  if ¬cfg.volumeExitEnabled ∨ currentPrice ≤ 0 then
    (st0, { shouldExit := false, phase := .none })
  else
    let state := st0.getD
      { lastPrice := currentPrice, lastTs := now, peakVelocity := 0, lastPeakTs := now }
    let dtMs := now - state.lastTs
    if dtMs ≤ 0 then
      (some state, { shouldExit := false, phase := .none })
    else
      let dtSec := dtMs / 1000
      let priceDelta := |currentPrice - state.lastPrice|
      let velocity := priceDelta / max currentPrice (1 / 1000000000) / max dtSec (1 / 1000)
      let state1 :=
        if state.peakVelocity < velocity then
          { state with peakVelocity := velocity, lastPeakTs := now }
        else state
      let state2 := { state1 with lastPrice := currentPrice, lastTs := now }
      if holdTimeMs < cfg.volumeMinHoldMs then
        (some state2, { shouldExit := false, phase := .none })
      else if state2.peakVelocity ≤ 0 then
        (some state2, { shouldExit := false, phase := .none })
      else
        let dropRatio := velocity / state2.peakVelocity
        let threshold := 1 - cfg.volumeDropPercent / 100
        let timeSincePeak := now - state2.lastPeakTs
        if dropRatio ≤ threshold ∧ cfg.volumeWindowMs ≤ timeSincePeak then
          (some state2, { shouldExit := true, phase := .volume_exit, reason := some "volume_dry_up" })
        else
          (some state2, { shouldExit := false, phase := .none })

/-- What the price service hands the monitor: `none` when the whole lookup
failed, otherwise a value whose `marketPrice` can itself be null. -/
structure CalculatedValue where
  marketPrice : Option ℚ
  solValue : ℚ
  deriving DecidableEq, Repr

/-- copyMonitor.ts `calculateCurrentValue`: when the oracle has no usable
price it falls back to the stored entry price and an entry-price valuation
(`(Number(position.entryPrice) || 0) * tokensAmount`; `x || 0` is the
identity on rationals). Returns `(currentPrice, currentSolValue)`. -/
def calculateCurrentValueMon (position : MonPosition)
    (valueData : Option CalculatedValue) : ℚ × ℚ :=
  match valueData with
  | none => (position.entryPrice, position.entryPrice * position.tokensAmount)
  | some v =>
    match v.marketPrice with
    | none => (position.entryPrice, position.entryPrice * position.tokensAmount)
    | some mp => (mp, v.solValue)

/-- Outcome of one body of the `monitorOpenPositions` loop for one
position: which sell (if any) was executed, a partial take-profit that
consumed the cycle, or holding. -/
inductive MonitorOutcome where
  | sell (reason : String)
  | partialSold
  | hold
  deriving DecidableEq, Repr

/-- The monitor guards the ladder sell with `exitDecision.shouldExit`
(copyMonitor.ts:598), but `CopyStrategy.shouldExit` returns an object whose
flag is named `exit` — the `ExitDecision` interface has no `shouldExit`
member (the access only type-checks through its `[key: string]: unknown`
index signature). The property read is therefore always `undefined`, which
is falsy. -/
def monitorShouldExitProperty (_exitDecision : ExitDecision) : Bool := false

/-- One iteration of the `monitorOpenPositions` for-loop body for a
position with `strategy === 'copy'`, from the price read to the exit
decision. `partialDone` is what `handlePartialTakeProfits` returned (it
talks to the live executor, an external collaborator, and is only
consulted when its gating flags allow it). `Except.error ()` propagates the
missing-`evaluateTrailingStop` TypeError to the loop's catch. The final
branch is guarded by `monitorShouldExitProperty`, i.e. it never fires: the
generic exit ladder is dead code in the monitor loop. -/
def monitorStep (cfg : MonitorConfig) (position : MonPosition)
    (valueData : Option CalculatedValue) (ws : Option WalletSellInfo)
    (volSt : Option VolumeState) (sellCount : ℕ) (partialDone : Bool)
    (now : ℚ) : Except Unit MonitorOutcome :=
  let currentPrice := (calculateCurrentValueMon position valueData).1
  let entryPrice := position.entryPrice
  let pnlPercent := (currentPrice - entryPrice) / entryPrice * 100
  let holdTime := now - position.entryTime
  match evaluateHybridExit cfg position pnlPercent ws now with
  | .error e => .error e
  | .ok hybridExit =>
    if hybridExit.shouldExit then
      .ok (.sell (hybridExit.reason.getD "hybrid_exit"))
    else
      let volumeExit :=
        (updateVolumeAndCheckExit cfg volSt currentPrice holdTime now).2
      if volumeExit.shouldExit then
        .ok (.sell (volumeExit.reason.getD "volume_exit"))
      else
        if cfg.partialTpEnabled ∧ ¬cfg.dryRun ∧ cfg.enableAutoTrading ∧
            cfg.hasExecutor ∧ partialDone then
          .ok .partialSold
        else
          let exitDecision := shouldExit cfg.strat
            { entryPrice := position.entryPrice, maxPrice := position.maxPrice,
              entryTime := position.entryTime }
            currentPrice now sellCount
          if monitorShouldExitProperty exitDecision then
            .ok (.sell ((exitDecision.reason.map ExitReason.toReasonString).getD ""))
          else
            .ok .hold

/-! ## Fixtures: concrete stores used by witnesses and counterexamples -/

/-- A store holding a single open position for mint `"M"`. -/
def posOpenM : PosHash :=
  { strategy := some "copy", status := some "open", entryPrice := .val 1,
    solAmount := .val 1, tokensAmount := .val 100, entryTime := .val 0,
    maxPrice := .val 10, walletSource := some "" }

def storeM : Store :=
  { openPositions := ["M"],
    positions := fun m => if m = "M" then some posOpenM else none,
    trades := [] }

/-- The empty store. -/
def storeEmpty : Store :=
  { openPositions := [], positions := fun _ => none, trades := [] }

lemma Store.mem_sadd (s : Store) (mint : String) :
    mint ∈ (s.sadd mint).openPositions := by
  unfold Store.sadd
  by_cases h : mint ∈ s.openPositions <;> simp [h]

/-! ## Claim C3: the max-price ratchet -/

/-- C3, counterexample. `updateMaxPrice` is claimed to update only when the
observed price strictly exceeds the stored max and to be a no-op when the
position is absent. On the store holding mint `"M"` with stored max `10`,
observing price `5` overwrites the stored max with `5 < 10`, and calling it
for the absent mint `"NOPOS"` creates a record rather than no-opping. -/
theorem C3_counterexample :
    (storeM.positions "M").map PosHash.maxPrice = some (.val 10) ∧
    ((updateMaxPrice storeM "M" 5).positions "M").map PosHash.maxPrice
      = some (.val 5) ∧
    (5 : ℚ) < 10 ∧
    (updateMaxPrice storeM "NOPOS" 7).positions "NOPOS" ≠ none := by
  refine ⟨rfl, ?_, by norm_num, ?_⟩ <;>
    simp [updateMaxPrice, Store.hsetPosition, storeM, posOpenM]

/-- C3, amended: `updateMaxPrice` unconditionally overwrites the stored
`maxPrice` with the observed price (creating the record when absent), so
after any sequence of observations the stored value is the *last* observed
price, not the running maximum. -/
theorem C3_updateMaxPrice_amended (s : Store) (mint : String) (ps : List ℚ)
    (p : ℚ) :
    ((List.foldl (fun st q => updateMaxPrice st mint q) s (ps ++ [p])).positions
        mint).map PosHash.maxPrice = some (.val p) := by
  induction ps generalizing s with
  | nil => simp [updateMaxPrice, Store.hsetPosition]
  | cons a ps ih => simpa using ih (updateMaxPrice s mint a)

/-! ## Claim C4: positivity validation on open -/

/-- C4, counterexample. The claim says the open operation fails when
`entryPrice ≤ 0` or the unit quantity `≤ 0`. Registering a position with
`entryPrice = 0` and `tokensAmount = 0` succeeds: the mint joins the open
set and the stored record has `status = open`, `entryPrice = 0`,
`tokensAmount = 0`. -/
theorem C4_counterexample :
    ∃ s', registerOpenPosition storeEmpty
        { mint := "M", strategy := "copy", entryPrice := 0, solAmount := 1,
          tokensAmount := 0 } 1000 = .ok s' ∧
      "M" ∈ s'.openPositions ∧
      (s'.positions "M").map PosHash.status = some (some "open") ∧
      (s'.positions "M").map PosHash.entryPrice = some (.val 0) ∧
      (s'.positions "M").map PosHash.tokensAmount = some (.val 0) := by
  refine ⟨_, rfl, ?_, ?_, ?_, ?_⟩ <;>
    simp [registerOpenPosition, Store.hsetPosition, Store.sadd, storeEmpty]

/-- C4, amended: `registerOpenPosition` validates only that `mint` and
`strategy` are non-empty; any finite `entryPrice` and `tokensAmount`
(including non-positive ones) are accepted and stored in a record that
reaches `status = open`. -/
theorem C4_register_amended (s : Store) (input : RegisterInput) (now : ℚ)
    (hm : input.mint ≠ "") (hs : input.strategy ≠ "") :
    ∃ s', registerOpenPosition s input now = .ok s' ∧
      input.mint ∈ s'.openPositions ∧
      (s'.positions input.mint).map PosHash.status = some (some "open") ∧
      (s'.positions input.mint).map PosHash.entryPrice
        = some (.val input.entryPrice) ∧
      (s'.positions input.mint).map PosHash.tokensAmount
        = some (.val input.tokensAmount) := by
  unfold registerOpenPosition
  rw [if_neg hm, if_neg hs]
  refine ⟨_, rfl, ?_, ?_, ?_, ?_⟩
  · exact Store.mem_sadd _ _
  all_goals simp [Store.hsetPosition]

/-- Witness for `C4_register_amended` at a concrete non-positive input. -/
theorem C4_register_amended_witness :
    ∃ s', registerOpenPosition storeEmpty
        { mint := "N", strategy := "copy", entryPrice := -3, solAmount := 1,
          tokensAmount := -2 } 5 = .ok s' ∧
      "N" ∈ s'.openPositions ∧
      (s'.positions "N").map PosHash.status = some (some "open") ∧
      (s'.positions "N").map PosHash.entryPrice = some (.val (-3)) ∧
      (s'.positions "N").map PosHash.tokensAmount = some (.val (-2)) :=
  C4_register_amended storeEmpty
    { mint := "N", strategy := "copy", entryPrice := -3, solAmount := 1,
      tokensAmount := -2 } 5 (by decide) (by decide)

/-! ## Claim C8: slippage clamping -/

/-- C8, counterexample. The claim says inputs below the epsilon of the
valid range yield the configured default, not a clamp to the boundary. At
input `1/20000` with default `3/20` the code returns the boundary
`1/10000`, which differs from the default. -/
theorem C8_counterexample :
    validateSlippage (some (1/20000)) (3/20) = 1/10000 ∧
    (1/10000 : ℚ) ≠ 3/20 := by
  constructor
  · simp [validateSlippage, safeParseNumber]
    norm_num
  · norm_num

/-- C8, amended: non-positive inputs yield the default; every positive
input is clamped into `[1/10000, 1/2]` (sub-epsilon values to the lower
boundary, values above 50% to the maximum, in-range values unchanged); a
non-finite input is replaced by the default value, which is then itself
subject to the same clamping. -/
theorem C8_validateSlippage_amended (q d : ℚ) :
    (0 < q → validateSlippage (some q) d = max (1/10000) (min q (1/2))) ∧
    (q ≤ 0 → validateSlippage (some q) d = d) ∧
    validateSlippage none d = validateSlippage (some d) d := by
  refine ⟨fun hq => ?_, fun hq => ?_, rfl⟩
  · simp only [validateSlippage, safeParseNumber]
    rw [if_neg (not_le.mpr hq)]
    by_cases h1 : (1:ℚ)/2 < q
    · rw [if_pos h1, min_eq_right h1.le, max_eq_right (by norm_num)]
    · rw [if_neg h1]
      by_cases h2 : q < 1/10000
      · rw [if_pos h2, min_eq_left (not_lt.mp h1), max_eq_left h2.le]
      · rw [if_neg h2, min_eq_left (not_lt.mp h1), max_eq_right (not_lt.mp h2)]
  · simp [validateSlippage, safeParseNumber, hq]

/-- Witness for `C8_validateSlippage_amended`: a positive sub-epsilon input
clamps to `max (1/10000) (min (1/20000) (1/2)) = 1/10000`. -/
theorem C8_validateSlippage_amended_witness :
    (0:ℚ) < 1/20000 ∧
    validateSlippage (some (1/20000)) (3/20)
      = max (1/10000) (min (1/20000) (1/2)) :=
  ⟨by norm_num, (C8_validateSlippage_amended (1/20000) (3/20)).1 (by norm_num)⟩

/-! ## Claim C9: confidence monotonicity -/

/-- C9, counterexample. A corroboration count of `0` maps to the default
`50` while `1` maps to `30`, so the score is not monotonic over all counts
`a ≤ b`. -/
theorem C9_counterexample :
    (0 : ℤ) ≤ 1 ∧ calculateConfidence 1 < calculateConfidence 0 := by
  decide

/-- C9, amended: on counts `≥ 1` the confidence score is monotonic, with
`1 ↦ 30`, `2 ↦ 70` and `≥ 3 ↦ 95`; counts below `1` fall back to the
default `50`, which breaks monotonicity at the `0 → 1` step. -/
theorem C9_confidence_amended (a b : ℤ) (h1 : 1 ≤ a) (hab : a ≤ b) :
    calculateConfidence a ≤ calculateConfidence b ∧
    calculateConfidence 1 = 30 ∧ calculateConfidence 2 = 70 ∧
    (3 ≤ a → calculateConfidence a = 95) := by
  refine ⟨?_, by decide, by decide, fun h3 => ?_⟩
  · unfold calculateConfidence
    split_ifs <;> omega
  · unfold calculateConfidence
    split_ifs <;> omega

/-- Witness for `C9_confidence_amended` at counts `3 ≤ 7`. -/
theorem C9_confidence_amended_witness :
    calculateConfidence 3 ≤ calculateConfidence 7 ∧
    calculateConfidence 1 = 30 ∧ calculateConfidence 2 = 70 ∧
    ((3:ℤ) ≤ 3 → calculateConfidence 3 = 95) :=
  C9_confidence_amended 3 7 (by decide) (by decide)

/-! ## Claim C2: the exit ladder picks the first true rule -/

/-- The priority number `shouldExit` attaches to each rule. -/
def exitRank : ExitReason → ℕ
  | .take_profit => 1
  | .trailing_stop => 2
  | .stop_loss => 3
  | .traders_sold => 4
  | .max_hold_time => 5

set_option maxHeartbeats 1600000 in
/-- C2: the exit decision engine returns at most one exit decision per
evaluation, chosen by strict priority: `shouldExit` returns exactly the
first rule (in the fixed order take-profit > trailing-stop > stop-loss >
corroborated-sellers > max-hold) whose condition holds, and a holding
decision exactly when no rule's condition holds. -/
theorem C2_shouldExit_first_true_rule (cfg : StrategyConfig)
    (p : StratPosition) (currentPrice now : ℚ) (sellCount : ℕ) :
    shouldExit cfg p currentPrice now sellCount =
      match exitPriorityOrder.find?
          (exitRuleFires cfg p currentPrice now sellCount) with
      | some r => { exit := true, reason := some r, priority := some (exitRank r) }
      | none => { exit := false } := by
  simp only [shouldExit, shouldExitAfterTakeProfit, exitRuleFires,
    exitPriorityOrder, List.find?]
  split_ifs <;>
    simp_all only [exitRank, decide_True, decide_False, true_and, and_true,
      false_and, and_false, false_or, or_false, true_or, or_true, not_true,
      not_false_iff, iff_true, eq_self_iff_true]

/-! ## Claim C1: double close (code bug) -/

/-- C1: evidence of the claim's failure on the code. On a store holding an
open position for `"M"`, two successive `closePosition` calls both succeed:
after the first call the stored status is already `"closed"`, yet the
second call does not error and appends a second trade record to the
ledger, with the live-mode network fee applied in each of the two records.
The spec requires the second call to fail with position-not-open or no-op. -/
theorem C1_double_close_appends_twice :
    ∃ s1 r1 s2 r2,
      closePosition storeM "M" (some 2) (some 100) (some 200)
          (some "take_profit") false 7 = .ok (s1, r1) ∧
      closePosition s1 "M" (some 2) (some 100) (some 200)
          (some "take_profit") false 8 = .ok (s2, r2) ∧
      (s1.positions "M").map PosHash.status = some (some "closed") ∧
      s1.trades.length = 1 ∧ s2.trades.length = 2 ∧
      s2.trades.map TradeRecord.estimatedFees
        = [5000 / 1000000000, 5000 / 1000000000] := by
  exact ⟨_, _, _, _, rfl, rfl, rfl, rfl, rfl, rfl⟩

/-! ## Claim C6: wallet-mirroring exit in the 3–10 minute window -/

/-- A strategy configuration used by concrete counterexamples/witnesses. -/
def stratMon : StrategyConfig :=
  { takeProfitEnabled := true
    takeProfitPercent := 60
    trailingStopEnabled := true
    trailingStopPercent := 15
    stopLossEnabled := true
    stopLoss := 15
    maxHoldEnabled := true
    maxHoldSeconds := 600
    minWalletsToSell := 2 }

/-- A monitor configuration used by concrete counterexamples/witnesses. -/
def cfgMon : MonitorConfig :=
  { minWalletsToSell := 2
    profitTargetPercent := 60
    trailingStopPercent := 0
    stopLossPercent := 15
    volumeExitEnabled := false
    volumeDropPercent := 70
    volumeWindowMs := 60000
    volumeMinHoldMs := 120000
    partialTpEnabled := false
    dryRun := true
    enableAutoTrading := true
    hasExecutor := false
    strat := stratMon }

/-- A copy position entered at time 0 with entry price 1. -/
def posMon : MonPosition :=
  { mint := "M", entryPrice := 1, solAmount := 1, tokensAmount := 100,
    entryTime := 0 }

/-- Seller state whose first recorded sell was at t = 240000. -/
def wsC6 : WalletSellInfo :=
  { walletsSellingSize := 2, lastSellAt := 240000, minEntryAt := 240000 }

/-- C6, counterexample. At `now = 300000` the position's hold time is
5 minutes (inside the claimed 3–10 minute phase), the tracked wallets have
sold one minute ago, and the current PnL is +10% (non-negative). The claim
says the sell signal is ignored and the position keeps holding; the code
exits with `copy_sell` regardless of the PnL sign. -/
theorem C6_counterexample :
    (180000 : ℚ) ≤ 300000 - posMon.entryTime ∧
    (300000 - posMon.entryTime : ℚ) ≤ 600000 ∧ (0 : ℚ) ≤ 10 ∧
    evaluateHybridExit cfgMon posMon 10 (some wsC6) 300000 =
      .ok { shouldExit := true, phase := .copy_wallets,
            reason := some "copy_sell" } := by
  have h : cfgMon.minWalletsToSell ≤ wsC6.walletsSellingSize ∧
      (300000 : ℚ) - wsC6.minEntryAt ≤ 180000 := by
    constructor <;> norm_num [cfgMon, wsC6]
  refine ⟨by norm_num [posMon], by norm_num [posMon], by norm_num, ?_⟩
  simp only [evaluateHybridExit]
  rw [if_pos h]

/-- C6, amended: whenever at least the configured number of tracked wallets
have sold and the first recorded sell is at most 3 minutes old, the hybrid
engine exits with `copy_sell` for *any* current PnL — the sell signal is
never ignored on non-negative PnL, at any hold time. -/
theorem C6_hybrid_sell_ignores_pnl (cfg : MonitorConfig) (pos : MonPosition)
    (pnlPercent : ℚ) (w : WalletSellInfo) (now : ℚ)
    (hcount : cfg.minWalletsToSell ≤ w.walletsSellingSize)
    (hwin : now - w.minEntryAt ≤ 180000) :
    evaluateHybridExit cfg pos pnlPercent (some w) now =
      .ok { shouldExit := true, phase := .copy_wallets,
            reason := some "copy_sell" } := by
  simp only [evaluateHybridExit]
  rw [if_pos ⟨hcount, hwin⟩]

/-- Witness for `C6_hybrid_sell_ignores_pnl` at a strictly positive PnL. -/
theorem C6_hybrid_sell_ignores_pnl_witness :
    evaluateHybridExit cfgMon posMon 10 (some wsC6) 300000 =
      .ok { shouldExit := true, phase := .copy_wallets,
            reason := some "copy_sell" } :=
  C6_hybrid_sell_ignores_pnl cfgMon posMon 10 wsC6 300000 (by norm_num [cfgMon, wsC6])
    (by norm_num [wsC6])

/-! ## Claim C7: PnL correctness on close -/

/-- C7: closing a position whose stored base amount is `S > 0` and stored
quantity is `Q > 0`, at exit price `X ≥ 0` with realized proceeds `X·Q`
and zero fees (simulation mode), records the average entry price
`E = S / Q` and a PnL percent of exactly `(X − E)/E · 100` (the embedding
is over ℚ, so "within floating tolerance" is exact equality). -/
theorem C7_close_pnl_formula (s : Store) (m : String) (raw : PosHash)
    (S Q X now : ℚ) (hm : s.positions m = some raw)
    (hS : raw.solAmount = .val S) (hQ : raw.tokensAmount = .val Q)
    (hS0 : 0 < S) (hQ0 : 0 < Q) (hX : 0 ≤ X) :
    ∃ s' res, closePosition s m (some X) (some Q) (some (X * Q)) none true now
        = .ok (s', res) ∧
      ∃ rec, s'.trades = s.trades ++ [rec] ∧
        rec.avgEntryPrice = S / Q ∧
        rec.pnlPercent = (X - S / Q) / (S / Q) * 100 ∧
        res.pnlPercent = (X - S / Q) / (S / Q) * 100 := by
  have hQne : Q ≠ 0 := ne_of_gt hQ0
  have hSne : S ≠ 0 := ne_of_gt hS0
  have hXQ : (0 : ℚ) ≤ X * Q := mul_nonneg hX hQ0.le
  have hpnl : (X * Q - S) / S * 100 = (X - S / Q) / (S / Q) * 100 := by
    field_simp
  unfold closePosition
  rw [hm]
  refine ⟨_, _, rfl, _, rfl, ?_, ?_, ?_⟩ <;>
    simp only [hS, hQ, safeParseField, safeParseNumber, safeDivide,
      if_neg hQne, if_neg hQ0.not_le, if_pos hQ0, min_self,
      if_neg (by push_neg; exact ⟨hQ0, hS0⟩ : ¬(Q ≤ 0 ∨ S ≤ 0)),
      eq_self_iff_true, if_true, sub_zero, div_mul_cancel₀ S hQne,
      if_neg hSne, max_eq_left hXQ, hpnl]

/-- Witness for `C7_close_pnl_formula` on the concrete store. -/
theorem C7_close_pnl_formula_witness :
    ∃ s' res, closePosition storeM "M" (some 2) (some 100) (some (2 * 100))
        none true 9 = .ok (s', res) ∧
      ∃ rec, s'.trades = storeM.trades ++ [rec] ∧
        rec.avgEntryPrice = 1 / 100 ∧
        rec.pnlPercent = (2 - 1 / 100) / (1 / 100) * 100 ∧
        res.pnlPercent = (2 - 1 / 100) / (1 / 100) * 100 :=
  C7_close_pnl_formula storeM "M" posOpenM 1 100 2 9 rfl rfl rfl
    (by norm_num) (by norm_num) (by norm_num)

/-! ## Claim C10: recorded loss bounded by cost basis -/

lemma neg_le_max_sub (a b : ℚ) : -b ≤ max a 0 - b := by
  have := le_max_right a 0
  linarith

/-- C10: every successful close appends exactly one trade record whose
realized proceeds are floored at zero after fee subtraction
(`solReceived ≥ 0`), so the recorded `pnlSOL` is never below minus the
recorded cost basis — for every store, close price, quantity, reported
proceeds (including missing/non-finite ones), reason and fee mode. -/
theorem C10_close_loss_bounded (s : Store) (m : String)
    (closePrice tokensSold solReceived : JsNum) (reason : Option String)
    (dryRun : Bool) (now : ℚ) {s' : Store} {res : ClosedPosition}
    (h : closePosition s m closePrice tokensSold solReceived reason dryRun now
      = .ok (s', res)) :
    ∃ rec, s'.trades = s.trades ++ [rec] ∧ 0 ≤ rec.solReceived ∧
      -rec.costBasis ≤ rec.pnlSOL := by
  unfold closePosition at h
  cases hm : s.positions m with
  | none =>
    rw [hm] at h
    exact absurd h (by simp)
  | some raw =>
    rw [hm] at h
    injection h with h1
    injection h1 with hs' hres
    subst hs'
    exact ⟨_, rfl, le_max_right _ _, neg_le_max_sub _ _⟩

/-- Witness for `C10_close_loss_bounded`: a live-mode close with missing
reported proceeds still records `solReceived ≥ 0` and
`pnlSOL ≥ -costBasis`. -/
theorem C10_close_loss_bounded_witness :
    ∃ s' res, closePosition storeM "M" (some 2) (some 100) none none false 7
        = .ok (s', res) ∧
      ∃ rec, s'.trades = storeM.trades ++ [rec] ∧ 0 ≤ rec.solReceived ∧
        -rec.costBasis ≤ rec.pnlSOL :=
  ⟨_, _, rfl,
    C10_close_loss_bounded storeM "M" (some 2) (some 100) none none false 7 rfl⟩

/-! ## Claim C5: unknown price in a monitor cycle -/

/-- Every successful hybrid evaluation is one of four decisions, and the
stop-loss one only occurs when the PnL is at or below the hard stop. -/
lemma evaluateHybridExit_ok_forms {cfg : MonitorConfig} {pos : MonPosition}
    {pnl : ℚ} {ws : Option WalletSellInfo} {now : ℚ} {d : HybridExitDecision}
    (h : evaluateHybridExit cfg pos pnl ws now = .ok d) :
    d.reason = none ∨ d.reason = some "copy_sell" ∨
    d.reason = some "hybrid_take_profit" ∨
    (d.reason = some "hybrid_stop_loss" ∧ pnl ≤ -|cfg.stopLossPercent|) := by
  rcases ws with _ | w <;>
    simp only [evaluateHybridExit,
      evaluateHybridExit.evaluateHybridExitTail] at h <;>
    split_ifs at h <;> (injection h with h1; subst h1; simp_all)

/-- A volume decision's reason is absent or `volume_dry_up`. -/
lemma updateVolume_reason_forms (cfg : MonitorConfig)
    (st : Option VolumeState) (cp hold now : ℚ) :
    (updateVolumeAndCheckExit cfg st cp hold now).2.reason = none ∨
    (updateVolumeAndCheckExit cfg st cp hold now).2.reason
      = some "volume_dry_up" := by
  simp only [updateVolumeAndCheckExit]
  split_ifs <;> simp

set_option maxHeartbeats 800000 in
/-- C5, amended: when the price oracle has no usable price, the monitor
does not skip the position — it substitutes the stored entry price (never
zero) as the cycle's current price, so the stop-loss rules see a 0% PnL
and can never fire (the hybrid hard stop is excluded at 0%, and the ladder
stop-loss can never sell at all because the monitor guards the ladder on
the `shouldExit` property the strategy never sets); the remaining exit
rules are still evaluated and the wallet-sell or volume rules may close
the position at the entry-price fallback. -/
theorem C5_unknown_price_amended (cfg : MonitorConfig) (pos : MonPosition)
    (ws : Option WalletSellInfo) (volSt : Option VolumeState) (sc : ℕ)
    (pd : Bool) (now : ℚ) (hentry : 0 < pos.entryPrice)
    (hsl1 : 0 < cfg.stopLossPercent) :
    (calculateCurrentValueMon pos none).1 = pos.entryPrice ∧
    monitorStep cfg pos none ws volSt sc pd now ≠ .ok (.sell "stop_loss") ∧
    monitorStep cfg pos none ws volSt sc pd now
      ≠ .ok (.sell "hybrid_stop_loss") := by
  have key : ∀ out, monitorStep cfg pos none ws volSt sc pd now = .ok out →
      out ≠ MonitorOutcome.sell "stop_loss" ∧
      out ≠ MonitorOutcome.sell "hybrid_stop_loss" := by
    intro out h
    simp only [monitorStep, calculateCurrentValueMon, sub_self, zero_div,
      zero_mul] at h
    split at h
    · exact absurd h (by simp)
    · rename_i d heq
      split at h
      · injection h with h1
        subst h1
        rcases evaluateHybridExit_ok_forms heq with hr | hr | hr | ⟨hr, hineq⟩
        · exact ⟨by simp [hr], by simp [hr]⟩
        · exact ⟨by simp [hr], by simp [hr]⟩
        · exact ⟨by simp [hr], by simp [hr]⟩
        · exfalso
          have habs : 0 < |cfg.stopLossPercent| := abs_pos.mpr (ne_of_gt hsl1)
          linarith
      · split at h
        · rename_i hv
          injection h with h1
          subst h1
          rcases updateVolume_reason_forms cfg volSt pos.entryPrice
              (now - pos.entryTime) now with hr | hr
          · exact ⟨by simp [hr], by simp [hr]⟩
          · exact ⟨by simp [hr], by simp [hr]⟩
        · split at h
          · injection h with h1
            subst h1
            exact ⟨by simp, by simp⟩
          · split at h
            · rename_i hguard
              exact absurd hguard (by simp [monitorShouldExitProperty])
            · injection h with h1
              subst h1
              exact ⟨by simp, by simp⟩
  exact ⟨rfl, fun hbad => (key _ hbad).1 rfl, fun hbad => (key _ hbad).2 rfl⟩

/-- Witness for `C5_unknown_price_amended` on the concrete configuration. -/
theorem C5_unknown_price_amended_witness :
    (calculateCurrentValueMon posMon none).1 = posMon.entryPrice ∧
    monitorStep cfgMon posMon none none none 0 false 700000
      ≠ .ok (.sell "stop_loss") ∧
    monitorStep cfgMon posMon none none none 0 false 700000
      ≠ .ok (.sell "hybrid_stop_loss") :=
  C5_unknown_price_amended cfgMon posMon none none 0 false 700000
    (by norm_num [posMon]) (by norm_num [cfgMon])

/-- C5, counterexample. The claim says that with an unknown price the
engine skips the position for the cycle, evaluating no exit rule and
leaving the position open. With the oracle returning nothing
(`valueData = none`) and two tracked wallets having sold a minute ago, the
same cycle evaluates the wallet-mirroring rule against the entry-price
fallback and closes the position with `copy_sell`: exit rules *are*
evaluated, and the position does not stay open. -/
theorem C5_counterexample :
    monitorStep cfgMon posMon none (some wsC6) none 0 false 300000
      = .ok (.sell "copy_sell") := by
  simp only [monitorStep, calculateCurrentValueMon, evaluateHybridExit,
    evaluateHybridExit.evaluateHybridExitTail, cfgMon, posMon, wsC6]
  norm_num

end ChangeBot
